import Mathlib

/-!
Verification of the detection-text parsing and box-rendering core of a
3D object detection visualization platform.

The Python source is embedded shallowly:

* Python strings are modelled as `List Char` (`PyStr`); the handful of
  `str` methods the code uses (`strip`, `splitlines`, `split(sep)[i]`,
  `replace`, `in`, `startswith`, `endswith`, `find`, `rfind`, slicing)
  are re-implemented structurally below with Python's semantics
  (`splitlines` is modelled for newline-terminated lines, the only case
  the payloads exercise).
* Numbers are `ℚ`; Python's `int(...)` truncation toward zero is `pyInt`.
* `math.cos` / `math.sin` / `np.deg2rad` are transcendental, so every
  function of the embedding that uses them is parametrised by functions
  `cos sin deg2rad : ℚ → ℚ`; the source only ever consumes the finitely
  many values these take on the box's angles, so each theorem either
  holds for all interpretations or assumes the defining values it needs
  (e.g. `cos 0 = 1`).
* `json.loads` is external library code; it is abstracted as an oracle
  `loads : PyStr → Except String Json` whose `Except.error` models a
  raised `JSONDecodeError`.
* Rendering calls (`cv2.line`, `patches.Rectangle`) are modelled by the
  sequence of drawing commands they would receive; a Python exception
  that escapes a function is modelled by an `Option`-valued result
  (`none` = the function's `except` handler returned `None`).
-/

/-! ### Python string primitives -/

/-- A Python `str`, modelled as its list of characters. -/
abbrev PyStr := List Char

/-- Python `str.strip()`: drop whitespace from both ends. -/
def pyStrip (l : PyStr) : PyStr :=
  ((l.dropWhile Char.isWhitespace).reverse.dropWhile Char.isWhitespace).reverse

/-- Python `sep in s`: substring containment. -/
def containsSub (sep : PyStr) : PyStr → Bool
  | [] => sep.isEmpty
  | c :: r => sep.isPrefixOf (c :: r) || containsSub sep r

/-- Python `s.split(sep)[0]`: the prefix of `s` before the first
occurrence of `sep` (all of `s` if `sep` does not occur). -/
def takeUntilSub (sep : PyStr) : PyStr → PyStr
  | [] => []
  | c :: r => if sep.isPrefixOf (c :: r) then [] else c :: takeUntilSub sep r

/-- The suffix of `s` after the first occurrence of `sep`, if any. -/
def afterFirstSub (sep : PyStr) : PyStr → Option PyStr
  | [] => none
  | c :: r => if sep.isPrefixOf (c :: r) then some ((c :: r).drop sep.length)
              else afterFirstSub sep r

/-- Python `s.split(sep)[1]`: the segment between the first and second
occurrences of `sep`.  The source only evaluates it on lines that are
known to contain `sep`, so the (in Python: `IndexError`) missing case is
mapped to `[]`. -/
def splitSecond (sep : PyStr) (l : PyStr) : PyStr :=
  match afterFirstSub sep l with
  | some t => takeUntilSub sep t
  | none => []

/-- Fuel-driven worker for `removeAllSub` (structural recursion needs the
fuel; it is always run with `fuel = l.length`, enough to consume `l`). -/
def removeAllGo (sep : PyStr) : ℕ → PyStr → PyStr
  | _, [] => []
  | 0, l => l
  | fuel + 1, c :: r =>
    if sep.isPrefixOf (c :: r) then removeAllGo sep fuel ((c :: r).drop sep.length)
    else c :: removeAllGo sep fuel r

/-- Python `s.replace(sep, "")`: delete every (left-to-right,
non-overlapping) occurrence of `sep`. -/
def removeAllSub (sep : PyStr) (l : PyStr) : PyStr :=
  removeAllGo sep l.length l

/-- Worker for `pySplitLines`, accumulating the current line reversed. -/
def splitLinesGo : PyStr → PyStr → List PyStr
  | [], cur => [cur.reverse]
  | c :: r, cur => if c = '\n' then cur.reverse :: splitLinesGo r [] else splitLinesGo r (c :: cur)

/-- Python `s.splitlines()` for newline-separated text. -/
def pySplitLines (l : PyStr) : List PyStr :=
  splitLinesGo l []

/-- Python `"\n".join(lines)`. -/
def joinLines (lines : List PyStr) : PyStr :=
  List.intercalate ("\n".data) lines

/-- Index of the first character satisfying `p`. -/
def pyFindAux (p : Char → Bool) : PyStr → Option ℕ
  | [] => none
  | c :: r => if p c then some 0 else (pyFindAux p r).map (· + 1)

/-- Python `s.find(ch)` (as an `Option` instead of `-1`). -/
def pyFind (ch : Char) (l : PyStr) : Option ℕ :=
  pyFindAux (· == ch) l

/-- Python `s.rfind(ch)` (as an `Option` instead of `-1`). -/
def pyRfind (ch : Char) (l : PyStr) : Option ℕ :=
  match pyFindAux (· == ch) l.reverse with
  | some k => some (l.length - 1 - k)
  | none => none

/-- Python `s[a:b]`. -/
def pySlice (l : PyStr) (a b : ℕ) : PyStr :=
  (l.drop a).take (b - a)

/-! ### `APIClient.parse_json_response` (src/modules/api_client.py, lines 108-156) -/

/-- The triple-backtick fence marker. -/
def fenceMarker : PyStr := "```".data

/-- Line 124: `line.strip() == "```json"`. -/
def isExactFence (line : PyStr) : Bool :=
  pyStrip line = ("```json".data)

/-- Line 130: `line.strip().startswith("```") and "json" in line.strip()`. -/
def isInlineFence (line : PyStr) : Bool :=
  fenceMarker.isPrefixOf (pyStrip line) && containsSub ("json".data) (pyStrip line)

/-- Lines 126-129: `"\n".join(lines[i+1:]).split("```")[0].strip()` — the
text after the opening fence line, cut at the next fence marker, stripped. -/
def fencedInterior (rest : List PyStr) : PyStr :=
  pyStrip (takeUntilSub fenceMarker (joinLines rest))

/-- Lines 132-136: the same-line ```` ```json ```` case. -/
def inlineFencePayload (line : PyStr) (rest : List PyStr) : PyStr :=
  let json_part := pyStrip (removeAllSub ("json".data) (splitSecond fenceMarker line))
  pyStrip (takeUntilSub fenceMarker (json_part ++ '\n' :: joinLines rest))

/-- Lines 123-136: the `for i, line in enumerate(lines)` fence scan; `none`
models falling through the loop. -/
def fenceScan : List PyStr → Option PyStr
  | [] => none
  | line :: rest =>
    if isExactFence line then some (fencedInterior rest)
    else if isInlineFence line then some (inlineFencePayload line rest)
    else fenceScan rest

/-- Lines 146-149 (and 151-154): `find`/`rfind` bracket pairing; the slice
is produced only when both brackets are found in order (`end_idx > start_idx`). -/
def tryBracketSlice (opn cls : Char) (text : PyStr) : Option PyStr :=
  match pyFind opn text, pyRfind cls text with
  | some s, some e => if s < e then some (pySlice text s (e + 1)) else none
  | _, _ => none

/-- Lines 138-156: the no-fence fallback on `text.strip()` — verbatim
bracketed text, else the outermost `[`…`]` slice, else the outermost
brace slice, else the stripped text itself. -/
def bracketFallback (text0 : PyStr) : PyStr :=
  let text := pyStrip text0
  if ("[".data).isPrefixOf text && ("]".data).isSuffixOf text then text
  else if ("\x7b".data).isPrefixOf text && ("\x7d".data).isSuffixOf text then text
  else
    match tryBracketSlice '[' ']' text with
    | some r => r
    | none =>
      match tryBracketSlice '\x7b' '\x7d' text with
      | some r => r
      | none => text

/-- `APIClient.parse_json_response` (lines 108-156). -/
def parse_json_response (text : PyStr) : PyStr :=
  if text = [] then []
  else
    match fenceScan (pySplitLines text) with
    | some r => r
    | none => bracketFallback text

/-! ### `parse_bbox_3d_from_text` / `parse_bbox_2d_from_text` (lines 158-216) -/

/-- A decoded JSON value (the shape `json.loads` can return). -/
inductive Json where
  | null : Json
  | bool (b : Bool) : Json
  | num (q : ℚ) : Json
  | str (s : String) : Json
  | arr (elems : List Json) : Json
  | obj (fields : List (String × Json)) : Json

/-- `APIClient.parse_bbox_3d_from_text` (lines 158-186).  `loads` is the
`json.loads` oracle; an `Except.error` models a raised `JSONDecodeError`,
which the source's `except` clause maps to `[]`. -/
def parse_bbox_3d_from_text (loads : PyStr → Except String Json) (text : PyStr) : List Json :=
  let json_str := parse_json_response text
  let body : Except String (List Json) :=
    if json_str = [] then Except.ok []
    else
      match loads json_str with
      | Except.error e => Except.error e
      | Except.ok (Json.arr l) => Except.ok l
      | Except.ok (Json.obj kvs) => Except.ok [Json.obj kvs]
      | Except.ok _ => Except.ok []
  match body with
  | Except.ok l => l
  | Except.error _ => []

/-- `APIClient.parse_bbox_2d_from_text` (lines 188-216); its body is a
verbatim copy of the 3D variant's. -/
def parse_bbox_2d_from_text (loads : PyStr → Except String Json) (text : PyStr) : List Json :=
  let json_str := parse_json_response text
  let body : Except String (List Json) :=
    if json_str = [] then Except.ok []
    else
      match loads json_str with
      | Except.error e => Except.error e
      | Except.ok (Json.arr l) => Except.ok l
      | Except.ok (Json.obj kvs) => Except.ok [Json.obj kvs]
      | Except.ok _ => Except.ok []
  match body with
  | Except.ok l => l
  | Except.error _ => []

/-! ### `Visualization3D.convert_3dbbox` (src/modules/visualization.py, lines 28-98) -/

/-- The 9 parameters of a 3D box, in the unpacking order of line 40:
`x, y, z, x_size, y_size, z_size, pitch, yaw, roll` (angles in radians). -/
structure Box3D where
  x : ℚ
  y : ℚ
  z : ℚ
  x_size : ℚ
  y_size : ℚ
  z_size : ℚ
  pitch : ℚ
  yaw : ℚ
  roll : ℚ

/-- Pinhole intrinsics (`cam_params` dictionary). -/
structure CamParams where
  fx : ℚ
  fy : ℚ
  cx : ℚ
  cy : ℚ

/-- Lines 43-55: the 8 local corners `(±x_size/2, ±y_size/2, ±z_size/2)`
in the source's index order 0-7. -/
def local_corners (b : Box3D) : List (ℚ × ℚ × ℚ) :=
  let hx := b.x_size / 2
  let hy := b.y_size / 2
  let hz := b.z_size / 2
  [(hx, hy, hz), (hx, hy, -hz), (hx, -hy, hz), (hx, -hy, -hz),
   (-hx, hy, hz), (-hx, hy, -hz), (-hx, -hy, hz), (-hx, -hy, -hz)]

/-- Lines 57-90: one corner through the yaw/pitch/roll formulas and the
final translation, with `cos`/`sin` as the `math.cos`/`math.sin` oracles. -/
def rotateCorner (cos sin : ℚ → ℚ) (b : Box3D) (p : ℚ × ℚ × ℚ) : ℚ × ℚ × ℚ :=
  let cos_roll := cos b.roll
  let sin_roll := sin b.roll
  let cos_pitch := cos b.pitch
  let sin_pitch := sin b.pitch
  let cos_yaw := cos b.yaw
  let sin_yaw := sin b.yaw
  match p with
  | (x0, y0, z0) =>
    let x1 := x0 * cos_yaw + z0 * sin_yaw
    let y1 := y0
    let z1 := -x0 * sin_yaw + z0 * cos_yaw
    let x2 := x1
    let y2 := y1 * cos_pitch - z1 * sin_pitch
    let z2 := y1 * sin_pitch + z1 * cos_pitch
    let x3 := x2 * cos_roll - y2 * sin_roll
    let y3 := x2 * sin_roll + y2 * cos_roll
    let z3 := z2
    (x3 + b.x, y3 + b.y, z3 + b.z)

/-- Lines 92-96 applied to one corner: project it iff its depth `Z` is
strictly positive, with `x_px = fx*(X/Z)+cx`, `y_px = fy*(Y/Z)+cy`. -/
def projectCorner (cos sin : ℚ → ℚ) (b : Box3D) (cam : CamParams) (corner : ℚ × ℚ × ℚ) :
    Option (ℚ × ℚ) :=
  let t := rotateCorner cos sin b corner
  if 0 < t.2.2 then
    some (cam.fx * (t.1 / t.2.2) + cam.cx, cam.fy * (t.2.1 / t.2.2) + cam.cy)
  else none

/-- `Visualization3D.convert_3dbbox` (lines 28-98): the corner loop,
appending the projection of each corner whose depth is positive. -/
def convert_3dbbox (cos sin : ℚ → ℚ) (b : Box3D) (cam : CamParams) : List (ℚ × ℚ) :=
  (local_corners b).foldl
    (fun img_corners corner =>
      let t := rotateCorner cos sin b corner
      if 0 < t.2.2 then
        img_corners ++ [(cam.fx * (t.1 / t.2.2) + cam.cx, cam.fy * (t.2.1 / t.2.2) + cam.cy)]
      else img_corners)
    []

/-- Per-index survival record of the 8 corners (`some` = the corner's
depth is positive and it projects, `none` = it is dropped); used to state
which wireframe edges have both endpoints surviving. -/
def cornerProjections (cos sin : ℚ → ℚ) (b : Box3D) (cam : CamParams) :
    List (Option (ℚ × ℚ)) :=
  (local_corners b).map (projectCorner cos sin b cam)

/-! #### The specification's view of the rotation (spec §4.2) -/

/-- A standard 2D rotation of `(u, v)` within its plane, given the cosine
and sine of the angle. -/
def rot2d (c s : ℚ) (p : ℚ × ℚ) : ℚ × ℚ :=
  (p.1 * c - p.2 * s, p.1 * s + p.2 * c)

/-- Yaw: rotation about the vertical Y axis, i.e. `rot2d` in the (z, x)
plane. -/
def yawStep (c s : ℚ) (p : ℚ × ℚ × ℚ) : ℚ × ℚ × ℚ :=
  let r := rot2d c s (p.2.2, p.1)
  (r.2, p.2.1, r.1)

/-- Pitch: rotation about the lateral X axis, i.e. `rot2d` in the (y, z)
plane. -/
def pitchStep (c s : ℚ) (p : ℚ × ℚ × ℚ) : ℚ × ℚ × ℚ :=
  let r := rot2d c s (p.2.1, p.2.2)
  (p.1, r.1, r.2)

/-- Roll: rotation about the depth Z axis, i.e. `rot2d` in the (x, y)
plane. -/
def rollStep (c s : ℚ) (p : ℚ × ℚ × ℚ) : ℚ × ℚ × ℚ :=
  let r := rot2d c s (p.1, p.2.1)
  (r.1, r.2, p.2.2)

/-- Translation by the box centre `(xc, yc, zc)`. -/
def translatePoint (b : Box3D) (p : ℚ × ℚ × ℚ) : ℚ × ℚ × ℚ :=
  (p.1 + b.x, p.2.1 + b.y, p.2.2 + b.z)

/-! ### `Visualization3D.draw_3dbboxes` (lines 100-185) -/

/-- Python `int(q)`: truncation toward zero. -/
def pyInt (q : ℚ) : ℤ :=
  if 0 ≤ q then (q.num.toNat / q.den : ℕ) else -(((-q).num.toNat / q.den : ℕ))

/-- An integer pixel, as passed to `cv2.line` (line 161-162). -/
def toPix (p : ℚ × ℚ) : ℤ × ℤ :=
  (pyInt p.1, pyInt p.2)

/-- One drawn wireframe segment. -/
abbrev Seg := (ℤ × ℤ) × (ℤ × ℤ)

/-- Lines 120-124: the 12 cube edges as corner-index pairs. -/
def edges : List (ℕ × ℕ) :=
  [(0, 1), (2, 3), (4, 5), (6, 7),
   (0, 2), (1, 3), (4, 6), (5, 7),
   (0, 4), (1, 5), (2, 6), (3, 7)]

/-- Lines 153-169: the per-box drawing step.  A box is drawn only when at
least 8 corners survived projection (line 154); each edge is then drawn
from the compacted corner list, the per-edge `try` skipping any edge whose
index is out of range. -/
def drawBoxEdges (bbox_2d : List (ℚ × ℚ)) : List Seg :=
  if 8 ≤ bbox_2d.length then
    edges.filterMap fun se =>
      match bbox_2d[se.1]?, bbox_2d[se.2]? with
      | some p1, some p2 => some (toPix p1, toPix p2)
      | _, _ => none
  else []

/-- Lines 128-169 for one record (a bare 9-number list; the dict wrapper
only adds a label, which does not affect the drawn geometry): convert the
three angle slots with `deg2rad` (lines 141-148), project, draw.  A record
of any other arity raises in Python (an `IndexError` at `bbox_3d[6..8]` or
a `ValueError` unpacking in `convert_3dbbox`), modelled as `none`. -/
def processRecord (deg2rad cos sin : ℚ → ℚ) (cam : CamParams) (record : List ℚ) :
    Option (List Seg) :=
  match record with
  | [x, y, z, xs, ys, zs, pitch, yaw, roll] =>
    some (drawBoxEdges (convert_3dbbox cos sin
      ⟨x, y, z, xs, ys, zs, deg2rad pitch, deg2rad yaw, deg2rad roll⟩ cam))
  | _ => none

/-- `Visualization3D.draw_3dbboxes` (lines 100-185), as the sequence of
segments drawn for a list of records.  The whole-method `try` (lines
112/183-185) returns `None` when any record raises, so a single `none`
from `processRecord` aborts the batch with `none`. -/
def draw_3dbboxes (deg2rad cos sin : ℚ → ℚ) (cam : CamParams) :
    List (List ℚ) → Option (List Seg)
  | [] => some []
  | r :: rs =>
    match processRecord deg2rad cos sin cam r with
    | none => none
    | some segs =>
      match draw_3dbboxes deg2rad cos sin cam rs with
      | none => none
      | some rest => some (segs ++ rest)

/-! ### `Visualization2D.draw_bboxes_2d` (src/modules/visualization_2d.py, lines 25-159) -/

/-- A dict-shaped detection record: the three accepted geometry keys
(lines 72-78), plus `label` and `score`. -/
structure Dict2D where
  bbox_2d : Option (List ℚ)
  bbox : Option (List ℚ)
  bounding_box : Option (List ℚ)
  label : Option String
  score : Option ℚ

/-- One element of `bbox_data`: a dict or a bare coordinate list. -/
inductive Item2D where
  | dict (d : Dict2D) : Item2D
  | bare (coords : List ℚ) : Item2D

/-- One element of `processed_bboxes` (lines 80-92). -/
structure ProcessedBox where
  bbox : List ℚ
  label : String
  score : ℚ

/-- Lines 72-78: `bbox_key` is the first present key among `bbox_2d`,
`bbox`, `bounding_box`; its value is looked up. -/
def dictBboxValue (d : Dict2D) : Option (List ℚ) :=
  if d.bbox_2d.isSome then d.bbox_2d
  else if d.bbox.isSome then d.bbox
  else d.bounding_box

/-- Lines 69-92: build one `processed_bboxes` entry.  A dict is kept when
its geometry value is truthy (line 80: a non-empty list); a bare list is
kept when it has at least 4 entries (line 86). -/
def ingest : Item2D → Option ProcessedBox
  | Item2D.dict d =>
    match dictBboxValue d with
    | some v => if v = [] then none
                else some { bbox := v, label := d.label.getD "unknown", score := d.score.getD 1 }
    | none => none
  | Item2D.bare coords =>
    if 4 ≤ coords.length then some { bbox := coords, label := "object", score := 1 }
    else none

/-- The rectangle handed to `patches.Rectangle((x, y), w, h)` (line 130). -/
structure Rect where
  x : ℤ
  y : ℤ
  w : ℤ
  h : ℤ
deriving DecidableEq

/-- Lines 114-127: scale each raw coordinate by `actual/1000` per axis,
truncate with `int(...)`, swap so that `x1 ≤ x2` and `y1 ≤ y2`, and form
the rectangle's anchor and extents. -/
def scaleRect (bbox : List ℚ) (raw_width raw_height : ℚ) : Rect :=
  let abs_y1 := pyInt (bbox.getD 1 0 / 1000 * raw_height)
  let abs_x1 := pyInt (bbox.getD 0 0 / 1000 * raw_width)
  let abs_y2 := pyInt (bbox.getD 3 0 / 1000 * raw_height)
  let abs_x2 := pyInt (bbox.getD 2 0 / 1000 * raw_width)
  let xs := if abs_x2 < abs_x1 then (abs_x2, abs_x1) else (abs_x1, abs_x2)
  let ys := if abs_y2 < abs_y1 then (abs_y2, abs_y1) else (abs_y1, abs_y2)
  { x := xs.1, y := ys.1, w := xs.2 - xs.1, h := ys.2 - ys.1 }

/-- `Visualization2D.draw_bboxes_2d` (lines 25-159), as the list of drawn
rectangles on an image of the given actual size.  A processed record whose
geometry does not have exactly 4 numbers is skipped with a log message
(lines 104, 110-112); the unused lines 105-109 compute values that the
drawing never reads and are elided. -/
def draw_bboxes_2d (bbox_data : List Item2D) (raw_width raw_height : ℚ) : List Rect :=
  let processed_bboxes := bbox_data.filterMap ingest
  processed_bboxes.filterMap fun item =>
    if item.bbox.length = 4 then some (scaleRect item.bbox raw_width raw_height)
    else none

/-! ### Helper lemmas -/

/-- The append-accumulate loop of `convert_3dbbox` is a `filterMap`. -/
theorem foldl_append_eq_filterMap {α β : Type} (f : α → Option β) (l : List α) (acc : List β) :
    l.foldl (fun a x => (f x).elim a (fun y => a ++ [y])) acc
      = acc ++ l.filterMap f := by
  induction l generalizing acc with
  | nil => simp
  | cons x xs ih =>
    cases hx : f x <;> simp [List.foldl_cons, hx, ih]

/-- `pyInt` agrees with the integer it is given. -/
theorem pyInt_intCast (n : ℤ) : pyInt (n : ℚ) = n := by
  rcases le_or_lt 0 n with h | h
  · simp [pyInt, Rat.num_intCast, Rat.den_intCast, Int.toNat_of_nonneg, h]
  · simp only [pyInt, Rat.num_intCast, Rat.den_intCast]
    rw [if_neg]
    · simp only [← Rat.intCast_neg, Rat.num_intCast, Rat.den_intCast]
      omega
    · rw [not_le]
      exact_mod_cast h

/-- Evaluate `pyInt` at a rational known to be an integer. -/
theorem pyInt_eval (q : ℚ) (n : ℤ) (h : q = (n : ℚ)) : pyInt q = n := by
  rw [h, pyInt_intCast]

/-- The swap of lines 119-123 computes the min/max pair. -/
theorem swap_eq_min_max (u v : ℤ) :
    (if v < u then (v, u) else (u, v)) = (min u v, max u v) := by
  split <;> refine Prod.ext ?_ ?_ <;> simp [min_def, max_def] <;> omega

/-! ### C1: the rotation is the sequential Yaw → Pitch → Roll composition -/

/-- Claim C1: for every 3D box and every local corner, `convert_3dbbox`'s
per-corner transform is three sequential 2D rotations applied to the
evolving coordinate in the fixed order yaw (about the vertical Y axis),
then pitch (about the lateral X axis), then roll (about the depth Z axis),
followed by the translation by the box centre `(xc, yc, zc)`. -/
theorem convert_3dbbox_rotation_order (cos sin : ℚ → ℚ) (b : Box3D) (p : ℚ × ℚ × ℚ) :
    rotateCorner cos sin b p =
      translatePoint b
        (rollStep (cos b.roll) (sin b.roll)
          (pitchStep (cos b.pitch) (sin b.pitch)
            (yawStep (cos b.yaw) (sin b.yaw) p))) := by
  obtain ⟨x0, y0, z0⟩ := p
  simp only [rotateCorner, translatePoint, rollStep, pitchStep, yawStep, rot2d]
  refine Prod.ext ?_ (Prod.ext ?_ ?_) <;> dsimp only <;> ring

/-! ### C2: corners are projected exactly when their depth is positive -/

/-- Claim C2: `convert_3dbbox` returns exactly the projections
`(fx*(X/Z)+cx, fy*(Y/Z)+cy)` of the corners whose rotated-and-translated
depth `Z` is strictly positive (in corner order), so corners with `Z ≤ 0`
are dropped, the division by `Z` only happens under the guard `0 < Z`, and
the result can have fewer than 8 points. -/
theorem convert_3dbbox_projection_filter (cos sin : ℚ → ℚ) (b : Box3D) (cam : CamParams) :
    convert_3dbbox cos sin b cam
        = (local_corners b).filterMap (projectCorner cos sin b cam)
      ∧ (convert_3dbbox cos sin b cam).length ≤ 8 := by
  have hstep : convert_3dbbox cos sin b cam
      = (local_corners b).foldl
          (fun a x => (projectCorner cos sin b cam x).elim a (fun y => a ++ [y])) [] := by
    unfold convert_3dbbox projectCorner
    congr 1
    funext a x
    by_cases h : 0 < (rotateCorner cos sin b x).2.2 <;> simp [h]
  have hfm : convert_3dbbox cos sin b cam
      = (local_corners b).filterMap (projectCorner cos sin b cam) := by
    rw [hstep, foldl_append_eq_filterMap]
    simp
  refine ⟨hfm, ?_⟩
  rw [hfm]
  have h8 : (local_corners b).length = 8 := by simp [local_corners]
  calc ((local_corners b).filterMap (projectCorner cos sin b cam)).length
      ≤ (local_corners b).length := List.length_filterMap_le _ _
    _ = 8 := h8

/-! ### C3: the detection parsers are total and tolerant -/

/-- Claim C3: for every `json.loads` oracle and every text, both detection
parsers return (rather than raise): when the extracted string fails to
decode they return `[]`; a decoded top-level array is returned as-is; a
decoded top-level object becomes a one-element list; any other decoded
top-level value yields `[]`.  (When the extraction is empty the source
short-circuits to `[]` before decoding, hence the non-emptiness guards on
the decoded cases.) -/
theorem parse_bbox_tolerant (loads : PyStr → Except String Json) (text : PyStr) :
    (∀ e, loads (parse_json_response text) = Except.error e →
      parse_bbox_3d_from_text loads text = [] ∧ parse_bbox_2d_from_text loads text = [])
    ∧ (∀ l, parse_json_response text ≠ [] →
        loads (parse_json_response text) = Except.ok (Json.arr l) →
        parse_bbox_3d_from_text loads text = l ∧ parse_bbox_2d_from_text loads text = l)
    ∧ (∀ kvs, parse_json_response text ≠ [] →
        loads (parse_json_response text) = Except.ok (Json.obj kvs) →
        parse_bbox_3d_from_text loads text = [Json.obj kvs]
          ∧ parse_bbox_2d_from_text loads text = [Json.obj kvs])
    ∧ (∀ v, parse_json_response text ≠ [] →
        loads (parse_json_response text) = Except.ok v →
        (∀ l, v ≠ Json.arr l) → (∀ kvs, v ≠ Json.obj kvs) →
        parse_bbox_3d_from_text loads text = [] ∧ parse_bbox_2d_from_text loads text = []) := by
  refine ⟨?_, ?_, ?_, ?_⟩
  · intro e he
    by_cases hs : parse_json_response text = [] <;>
      simp [parse_bbox_3d_from_text, parse_bbox_2d_from_text, hs, he]
  · intro l hs hl
    simp [parse_bbox_3d_from_text, parse_bbox_2d_from_text, hs, hl]
  · intro kvs hs hl
    simp [parse_bbox_3d_from_text, parse_bbox_2d_from_text, hs, hl]
  · intro v hs hl harr hobj
    cases v <;>
      simp_all [parse_bbox_3d_from_text, parse_bbox_2d_from_text]

/-- The `json.loads` oracle used to witness `parse_bbox_tolerant`: it
decodes the single string `"[1]"` and rejects everything else. -/
def loadsOne : PyStr → Except String Json :=
  fun s => if s = ("[1]".data) then Except.ok (Json.arr [Json.num 1]) else Except.error "invalid"

/-- Witness for C3: on the raw text `"[1]"` (extracted verbatim by the
bracket rule) the oracle decodes an array, and both parsers return it
as-is. -/
theorem parse_bbox_tolerant_witness :
    parse_bbox_3d_from_text loadsOne ("[1]".data) = [Json.num 1]
      ∧ parse_bbox_2d_from_text loadsOne ("[1]".data) = [Json.num 1] := by
  have hp : parse_json_response ("[1]".data) = ("[1]".data) := by decide
  have hl : loadsOne (parse_json_response ("[1]".data)) = Except.ok (Json.arr [Json.num 1]) := by
    rw [hp]
    simp [loadsOne]
  exact (parse_bbox_tolerant loadsOne ("[1]".data)).2.1 [Json.num 1]
    (by rw [hp]; decide) hl

/-! ### C10: the 2D and 3D text parsers are the same function -/

/-- Claim C10: for every `json.loads` oracle and every input text,
`parse_bbox_2d_from_text` and `parse_bbox_3d_from_text` return the same
value (their bodies are verbatim copies). -/
theorem parse_bbox_2d_eq_3d (loads : PyStr → Except String Json) (text : PyStr) :
    parse_bbox_2d_from_text loads text = parse_bbox_3d_from_text loads text := rfl

/-! ### C4: extraction of a ```` ```json ```` fenced block -/

/-- Lines that fire neither fence branch are skipped by the scan. -/
theorem fenceScan_skip (pre rest : List PyStr)
    (hpre : ∀ l ∈ pre, isExactFence l = false ∧ isInlineFence l = false) :
    fenceScan (pre ++ rest) = fenceScan rest := by
  induction pre with
  | nil => rfl
  | cons p ps ih =>
    obtain ⟨hp1, hp2⟩ := hpre p (List.mem_cons_self p ps)
    simp only [List.cons_append, fenceScan, hp1, hp2, Bool.false_eq_true, if_false]
    exact ih fun l hl => hpre l (List.mem_cons_of_mem p hl)

/-- With no fence-like line at all, the scan falls through. -/
theorem fenceScan_none (lines : List PyStr)
    (h : ∀ l ∈ lines, isExactFence l = false ∧ isInlineFence l = false) :
    fenceScan lines = none := by
  have := fenceScan_skip lines [] h
  simpa using this

/-- Counterexample to claim C4 as stated: the text
`"``` json\nA\n```json\nB\n```\nC"` contains the line that is exactly
```` ```json ````, whose fenced interior (up to the next fence marker,
trimmed) is `"B"`; but `parse_json_response` fires the earlier same-line
fence branch on `"``` json"` and returns `"A"`. -/
theorem parse_json_response_fence_counterexample :
    pySplitLines ("``` json\nA\n```json\nB\n```\nC".data)
        = ["``` json".data, "A".data, "```json".data, "B".data, "```".data, "C".data]
      ∧ isExactFence ("```json".data) = true
      ∧ fencedInterior ["B".data, "```".data, "C".data] = ("B".data)
      ∧ parse_json_response ("``` json\nA\n```json\nB\n```\nC".data) = ("A".data)
      ∧ ("A".data) ≠ ("B".data) := by
  decide

/-- Claim C4 as amended: if the *first* line that fires either fence
branch is one that is exactly ```` ```json ```` (after stripping), then
`parse_json_response` returns exactly the interior between that fence and
the next fence marker, trimmed, excluding all text outside the fences,
even if additional fence markers appear later in the text. -/
theorem parse_json_response_fenced_block (text : PyStr) (pre : List PyStr) (mid : PyStr)
    (rest : List PyStr)
    (hsplit : pySplitLines text = pre ++ mid :: rest)
    (hpre : ∀ l ∈ pre, isExactFence l = false ∧ isInlineFence l = false)
    (hmid : isExactFence mid = true) :
    parse_json_response text = fencedInterior rest := by
  have htext : text ≠ [] := by
    intro h
    subst h
    have hnil : ([([] : PyStr)] : List PyStr) = pre ++ mid :: rest := by
      simpa [pySplitLines, splitLinesGo] using hsplit
    cases pre with
    | nil =>
      simp only [List.nil_append, List.cons.injEq] at hnil
      rw [← hnil.1] at hmid
      exact absurd hmid (by decide)
    | cons p ps =>
      simp only [List.cons_append, List.cons.injEq] at hnil
      exact absurd hnil.2 (by simp)
  unfold parse_json_response
  rw [if_neg htext, hsplit, fenceScan_skip pre (mid :: rest) hpre]
  simp only [fenceScan, hmid, if_true]

/-- Witness for C4 (amended): on `"x\n```json\n[1]\n```\ny"` the scan
reaches the exact fence after one non-fence line and extracts the fenced
interior. -/
theorem parse_json_response_fenced_block_witness :
    parse_json_response ("x\n```json\n[1]\n```\ny".data)
      = fencedInterior ["[1]".data, "```".data, "y".data] :=
  parse_json_response_fenced_block ("x\n```json\n[1]\n```\ny".data)
    ["x".data] ("```json".data) ["[1]".data, "```".data, "y".data]
    (by decide) (by decide) (by decide)

/-! ### C5: behaviour when no JSON shape is found -/

/-- The claim's "no `opn` before a later `cls`" condition on a character
list. -/
abbrev bracketPairFree (opn cls : Char) (l : PyStr) : Prop :=
  ∀ j, j < l.length → ∀ i, i < j → ¬(l.getD i ' ' = opn ∧ l.getD j ' ' = cls)

/-- A successful `pyFindAux` returns an in-range index whose element
satisfies the predicate. -/
theorem pyFindAux_some_spec (p : Char → Bool) (l : PyStr) (i : ℕ)
    (h : pyFindAux p l = some i) : i < l.length ∧ p (l.getD i ' ') = true := by
  induction l generalizing i with
  | nil => cases h
  | cons c r ih =>
    by_cases hc : p c = true
    · simp only [pyFindAux, hc, if_true] at h
      cases h
      exact ⟨Nat.succ_pos _, by simpa using hc⟩
    · have hc0 : p c = false := by
        cases hpc : p c
        · rfl
        · exact absurd hpc hc
      simp only [pyFindAux, hc0, Bool.false_eq_true, if_false] at h
      cases hm : pyFindAux p r with
      | none => rw [hm] at h; cases h
      | some k =>
        rw [hm] at h
        have hki : k + 1 = i := by simpa using h
        obtain ⟨hk1, hk2⟩ := ih k hm
        refine ⟨?_, ?_⟩
        · rw [← hki]
          simpa using Nat.succ_lt_succ hk1
        · rw [← hki]
          simpa using hk2

/-- `pyFind` returns an in-range position of the character. -/
theorem pyFind_spec (ch : Char) (l : PyStr) (i : ℕ) (h : pyFind ch l = some i) :
    i < l.length ∧ l.getD i ' ' = ch := by
  obtain ⟨h1, h2⟩ := pyFindAux_some_spec (· == ch) l i h
  exact ⟨h1, by simpa using h2⟩

/-- `getD` through `reverse`. -/
theorem getD_reverse (l : PyStr) (k : ℕ) (hk : k < l.length) (d : Char) :
    l.reverse.getD k d = l.getD (l.length - 1 - k) d := by
  have hk' : k < l.reverse.length := by simpa using hk
  have h2 : l.length - 1 - k < l.length := by omega
  rw [List.getD_eq_getElem?_getD, List.getD_eq_getElem?_getD,
    List.getElem?_eq_getElem hk', List.getElem?_eq_getElem h2, List.getElem_reverse]

/-- `pyRfind` returns an in-range position of the character. -/
theorem pyRfind_spec (ch : Char) (l : PyStr) (i : ℕ) (h : pyRfind ch l = some i) :
    i < l.length ∧ l.getD i ' ' = ch := by
  unfold pyRfind at h
  cases hr : pyFindAux (· == ch) l.reverse with
  | none => rw [hr] at h; cases h
  | some k =>
    rw [hr] at h
    obtain rfl : l.length - 1 - k = i := by cases h; rfl
    obtain ⟨hk1, hk2⟩ := pyFindAux_some_spec (· == ch) l.reverse k hr
    have hklen : k < l.length := by simpa using hk1
    refine ⟨by omega, ?_⟩
    rw [← getD_reverse l k hklen ' ']
    simpa using hk2

/-- When no `opn` occurs before a later `cls`, the slice attempt fails. -/
theorem tryBracketSlice_none (opn cls : Char) (l : PyStr)
    (h : bracketPairFree opn cls l) : tryBracketSlice opn cls l = none := by
  unfold tryBracketSlice
  cases hf : pyFind opn l with
  | none => rfl
  | some s =>
    cases hr : pyRfind cls l with
    | none => rfl
    | some e =>
      dsimp only
      rw [if_neg]
      intro hlt
      obtain ⟨hslen, hs⟩ := pyFind_spec opn l s hf
      obtain ⟨helen, he⟩ := pyRfind_spec cls l e hr
      exact h e helen s hlt ⟨hs, he⟩

/-- Counterexample to claim C5 as stated: `"hello"` is non-empty, has no
fence line, no bracketed ends and no bracket pair, yet
`parse_json_response` returns `"hello"` itself — not the empty string. -/
theorem parse_json_response_nojson_counterexample :
    ("hello".data ≠ ([] : PyStr))
      ∧ (∀ l ∈ pySplitLines ("hello".data), isExactFence l = false ∧ isInlineFence l = false)
      ∧ bracketPairFree '[' ']' (pyStrip ("hello".data))
      ∧ bracketPairFree '\x7b' '\x7d' (pyStrip ("hello".data))
      ∧ parse_json_response ("hello".data) = ("hello".data)
      ∧ parse_json_response ("hello".data) ≠ ([] : PyStr) := by
  refine ⟨by decide, by decide, by decide, by decide, by decide, by decide⟩

/-- Claim C5 as amended: for every non-empty text with no json fence
line, whose trimmed form does not both begin and end with matching
brackets, and in which no `[` occurs before a later `]` and no `{` before
a later `}`, `parse_json_response` returns the *trimmed text itself*
(which is empty only when the text is all whitespace) — not the empty
string. -/
theorem parse_json_response_nojson_returns_trim (text : PyStr)
    (h0 : text ≠ [])
    (h1 : ∀ l ∈ pySplitLines text, isExactFence l = false ∧ isInlineFence l = false)
    (h2 : (("[".data).isPrefixOf (pyStrip text) && ("]".data).isSuffixOf (pyStrip text)) = false)
    (h3 : (("\x7b".data).isPrefixOf (pyStrip text)
            && ("\x7d".data).isSuffixOf (pyStrip text)) = false)
    (h4 : bracketPairFree '[' ']' (pyStrip text))
    (h5 : bracketPairFree '\x7b' '\x7d' (pyStrip text)) :
    parse_json_response text = pyStrip text := by
  unfold parse_json_response
  rw [if_neg h0, fenceScan_none _ h1]
  unfold bracketFallback
  simp only [h2, h3, Bool.false_eq_true, if_false,
    tryBracketSlice_none '[' ']' _ h4, tryBracketSlice_none '\x7b' '\x7d' _ h5]

/-- Witness for C5 (amended): `"  hello "` satisfies all the hypotheses
and comes back trimmed. -/
theorem parse_json_response_nojson_returns_trim_witness :
    parse_json_response ("  hello ".data) = pyStrip ("  hello ".data) :=
  parse_json_response_nojson_returns_trim ("  hello ".data)
    (by decide) (by decide) (by decide) (by decide) (by decide) (by decide)

/-! ### Concrete trigonometric oracles for zero angles -/

/-- A `math.cos` oracle that is correct at the only angle the concrete
inputs below use: `cos0 0 = 1`. -/
def cos0 : ℚ → ℚ := fun _ => 1

/-- A `math.sin` oracle correct at `0`: `sin0 0 = 0`. -/
def sin0 : ℚ → ℚ := fun _ => 0

/-- A `np.deg2rad` oracle correct at `0`: `deg0 0 = 0`. -/
def deg0 : ℚ → ℚ := fun _ => 0

/-- Evaluation of `convert_3dbbox` on the box `(0,0,0, 2,2,2, 0,0,0)` with
camera `fx=fy=1000, cx=cy=0`: the four corners with local offset `z = +1`
sit at depth `Z = 1 > 0` and project to `(±1000, ±1000)`; the four at
`Z = -1` are dropped. -/
theorem convert_origin_eval :
    convert_3dbbox cos0 sin0 ⟨0, 0, 0, 2, 2, 2, 0, 0, 0⟩ ⟨1000, 1000, 0, 0⟩
      = [(1000, 1000), (1000, -1000), (-1000, 1000), (-1000, -1000)] := by
  simp only [convert_3dbbox, local_corners, rotateCorner, cos0, sin0, List.foldl]
  norm_num

/-! ### C6/C7: the 3D renderer's per-record and per-batch behaviour -/

/-- A record of any arity other than 9 raises in Python, i.e. maps to
`none`. -/
theorem processRecord_eq_none (deg2rad cos sin : ℚ → ℚ) (cam : CamParams) (r : List ℚ)
    (h : r.length ≠ 9) : processRecord deg2rad cos sin cam r = none := by
  rcases r with _ | ⟨a0, _ | ⟨a1, _ | ⟨a2, _ | ⟨a3, _ | ⟨a4, _ | ⟨a5, _ | ⟨a6, _ | ⟨a7, _ | ⟨a8, rest⟩⟩⟩⟩⟩⟩⟩⟩⟩
  all_goals first
    | rfl
    | (cases rest with
        | nil => simp at h
        | cons b bs => rfl)

/-- A 9-number record is processed without raising. -/
theorem processRecord_isSome (deg2rad cos sin : ℚ → ℚ) (cam : CamParams) (r : List ℚ)
    (h : r.length = 9) : ∃ segs, processRecord deg2rad cos sin cam r = some segs := by
  rcases r with _ | ⟨a0, _ | ⟨a1, _ | ⟨a2, _ | ⟨a3, _ | ⟨a4, _ | ⟨a5, _ | ⟨a6, _ | ⟨a7, _ | ⟨a8, rest⟩⟩⟩⟩⟩⟩⟩⟩⟩
  all_goals first
    | (cases rest with
        | nil => exact ⟨_, rfl⟩
        | cons b bs => simp at h)
    | simp at h

/-- Counterexample to claim C6 as stated: for the box
`(0,0,0, 2,2,2, 0,0,0)` and camera `fx=fy=1000, cx=cy=0`, corners 0 and 2
both survive projection and `(0, 2)` is one of the 12 wireframe edges, yet
the renderer draws nothing at all for this box (it requires all 8 corners,
line 154). -/
theorem draw_3dbboxes_incomplete_box_counterexample :
    ((cornerProjections cos0 sin0 ⟨0, 0, 0, 2, 2, 2, 0, 0, 0⟩ ⟨1000, 1000, 0, 0⟩).getD 0
        none).isSome = true
      ∧ ((cornerProjections cos0 sin0 ⟨0, 0, 0, 2, 2, 2, 0, 0, 0⟩ ⟨1000, 1000, 0, 0⟩).getD 2
          none).isSome = true
      ∧ (0, 2) ∈ edges
      ∧ drawBoxEdges (convert_3dbbox cos0 sin0 ⟨0, 0, 0, 2, 2, 2, 0, 0, 0⟩ ⟨1000, 1000, 0, 0⟩)
          = [] := by
  refine ⟨?_, ?_, by decide, ?_⟩
  · norm_num [cornerProjections, local_corners, projectCorner, rotateCorner, cos0, sin0]
  · norm_num [cornerProjections, local_corners, projectCorner, rotateCorner, cos0, sin0]
  · rw [convert_origin_eval]
    rfl

/-- Claim C6 as amended: a box whose projection yields fewer than 8
surviving corners is skipped entirely (none of its edges are drawn, even
those whose two endpoint corners both survived); when all 8 corners
survive, all 12 wireframe edges are drawn; and a batch of well-formed
records renders each box independently, so a box that yields no edges
does not abort the render. -/
theorem draw_3dbboxes_requires_all_corners (deg2rad cos sin : ℚ → ℚ) (cam : CamParams) :
    (∀ records : List (List ℚ), (∀ r ∈ records, r.length = 9) →
      draw_3dbboxes deg2rad cos sin cam records
        = some ((records.map fun r => (processRecord deg2rad cos sin cam r).getD []).flatten))
    ∧ (∀ b : Box3D, (convert_3dbbox cos sin b cam).length < 8 →
        drawBoxEdges (convert_3dbbox cos sin b cam) = [])
    ∧ (∀ b : Box3D, (convert_3dbbox cos sin b cam).length = 8 →
        drawBoxEdges (convert_3dbbox cos sin b cam)
          = edges.map fun se =>
              (toPix ((convert_3dbbox cos sin b cam).getD se.1 (0, 0)),
               toPix ((convert_3dbbox cos sin b cam).getD se.2 (0, 0)))) := by
  refine ⟨?_, ?_, ?_⟩
  · intro records h
    induction records with
    | nil => simp [draw_3dbboxes]
    | cons r rs ih =>
      obtain ⟨segs, hsegs⟩ := processRecord_isSome deg2rad cos sin cam r
        (h r (List.mem_cons_self r rs))
      have ihr := ih fun l hl => h l (List.mem_cons_of_mem r hl)
      simp [draw_3dbboxes, hsegs, ihr]
  · intro b hlt
    unfold drawBoxEdges
    rw [if_neg]
    omega
  · intro b h8
    rcases hconv : convert_3dbbox cos sin b cam with
      _ | ⟨p0, _ | ⟨p1, _ | ⟨p2, _ | ⟨p3, _ | ⟨p4, _ | ⟨p5, _ | ⟨p6, _ | ⟨p7, rest⟩⟩⟩⟩⟩⟩⟩⟩
    all_goals rw [hconv] at h8
    all_goals first
      | (cases rest with
          | nil => rfl
          | cons q qs => simp at h8)
      | simp at h8

/-- Witness for C6 (amended): the all-behind-on-one-side box draws
nothing, and a batch made of one well-formed box renders to its own edge
list. -/
theorem draw_3dbboxes_requires_all_corners_witness :
    drawBoxEdges (convert_3dbbox cos0 sin0 ⟨0, 0, 0, 2, 2, 2, 0, 0, 0⟩ ⟨1000, 1000, 0, 0⟩) = []
      ∧ draw_3dbboxes deg0 cos0 sin0 ⟨1000, 1000, 0, 0⟩ [[0, 0, 10, 2, 2, 2, 0, 0, 0]]
          = some (([[(0 : ℚ), 0, 10, 2, 2, 2, 0, 0, 0]].map
              fun r => (processRecord deg0 cos0 sin0 ⟨1000, 1000, 0, 0⟩ r).getD []).flatten) :=
  ⟨(draw_3dbboxes_requires_all_corners deg0 cos0 sin0 ⟨1000, 1000, 0, 0⟩).2.1
      ⟨0, 0, 0, 2, 2, 2, 0, 0, 0⟩ (by rw [convert_origin_eval]; decide),
   (draw_3dbboxes_requires_all_corners deg0 cos0 sin0 ⟨1000, 1000, 0, 0⟩).1
      [[0, 0, 10, 2, 2, 2, 0, 0, 0]] (by decide)⟩

/-- Counterexample to claim C7 as stated: a well-formed record alone
renders, but appending a 3-number record makes `draw_3dbboxes` return
`None` — the malformed record aborts the whole batch instead of being
skipped. -/
theorem draw_3dbboxes_bad_arity_counterexample :
    (draw_3dbboxes deg0 cos0 sin0 ⟨1000, 1000, 0, 0⟩ [[0, 0, 10, 2, 2, 2, 0, 0, 0]]).isSome
        = true
      ∧ draw_3dbboxes deg0 cos0 sin0 ⟨1000, 1000, 0, 0⟩
          [[0, 0, 10, 2, 2, 2, 0, 0, 0], [1, 2, 3]] = none := by
  constructor
  · simp [draw_3dbboxes, processRecord]
  · simp [draw_3dbboxes, processRecord]

/-- Claim C7 as amended: in the 2D renderer a record whose geometry does
not have exactly 4 numbers is skipped and the rest of the batch renders
unchanged; in the 3D renderer a record whose geometry does not have
exactly 9 numbers raises, and the whole-method handler returns `None`,
aborting rendering of the remaining records. -/
theorem bad_arity_2d_skips_3d_aborts :
    (∀ (pre post : List Item2D) (bad : Item2D) (W H : ℚ),
      (∀ pb, ingest bad = some pb → pb.bbox.length ≠ 4) →
      draw_bboxes_2d (pre ++ bad :: post) W H = draw_bboxes_2d (pre ++ post) W H)
    ∧ (∀ (deg2rad cos sin : ℚ → ℚ) (cam : CamParams) (pre post : List (List ℚ))
        (bad : List ℚ), bad.length ≠ 9 →
        draw_3dbboxes deg2rad cos sin cam (pre ++ bad :: post) = none) := by
  constructor
  · intro pre post bad W H hb
    cases hi : ingest bad with
    | none => simp [draw_bboxes_2d, List.filterMap_append, List.filterMap_cons, hi]
    | some pb =>
      have hlen : pb.bbox.length ≠ 4 := hb pb hi
      simp [draw_bboxes_2d, List.filterMap_append, List.filterMap_cons, hi, hlen]
  · intro deg2rad cos sin cam pre post bad hb
    induction pre with
    | nil =>
      simp [draw_3dbboxes, processRecord_eq_none deg2rad cos sin cam bad hb]
    | cons r rs ih =>
      simp only [List.cons_append, draw_3dbboxes]
      cases hr : processRecord deg2rad cos sin cam r with
      | none => rfl
      | some segs => simp [ih]

/-- Witness for C7 (amended): a 3-number record is dropped by the 2D
renderer but turns the 3D renderer's whole batch into `None`. -/
theorem bad_arity_2d_skips_3d_aborts_witness :
    draw_bboxes_2d [Item2D.bare [1, 2, 3]] 500 500 = draw_bboxes_2d [] 500 500
      ∧ draw_3dbboxes deg0 cos0 sin0 ⟨1000, 1000, 0, 0⟩ [[1, 2, 3]] = none :=
  ⟨bad_arity_2d_skips_3d_aborts.1 [] [] (Item2D.bare [1, 2, 3]) 500 500
      (by intro pb h; simp [ingest] at h),
   bad_arity_2d_skips_3d_aborts.2 deg0 cos0 sin0 ⟨1000, 1000, 0, 0⟩ [] [] [1, 2, 3]
      (by decide)⟩

/-! ### C8: 2D rectangle scaling on the virtual 1000-scale -/

/-- Claim C8: for every 4-number geometry `[a, b, c, d]` on an image of
actual size `W × H`, the drawn rectangle's pixel coordinates are
`raw/1000 * dimension` independently per axis (width for x, height for y,
truncated to integer pixels by Python's `int`), with the corner pairs
swapped if needed so that `x1 ≤ x2` and `y1 ≤ y2`; in particular
`[100,100,900,900]` on a 500×500 image yields the rectangle with anchor
`(50,50)` and extents `400×400` (i.e. corners `(50,50)`-`(450,450)`), and
the reversed input `[900,900,100,100]` yields that same rectangle. -/
theorem draw_bboxes_2d_scaling :
    (∀ a b c d W H : ℚ,
      draw_bboxes_2d [Item2D.bare [a, b, c, d]] W H
        = [{ x := min (pyInt (a / 1000 * W)) (pyInt (c / 1000 * W)),
             y := min (pyInt (b / 1000 * H)) (pyInt (d / 1000 * H)),
             w := max (pyInt (a / 1000 * W)) (pyInt (c / 1000 * W))
                    - min (pyInt (a / 1000 * W)) (pyInt (c / 1000 * W)),
             h := max (pyInt (b / 1000 * H)) (pyInt (d / 1000 * H))
                    - min (pyInt (b / 1000 * H)) (pyInt (d / 1000 * H)) }])
    ∧ draw_bboxes_2d [Item2D.bare [100, 100, 900, 900]] 500 500
        = [{ x := 50, y := 50, w := 400, h := 400 }]
    ∧ draw_bboxes_2d [Item2D.bare [900, 900, 100, 100]] 500 500
        = [{ x := 50, y := 50, w := 400, h := 400 }] := by
  have hgen : ∀ a b c d W H : ℚ,
      draw_bboxes_2d [Item2D.bare [a, b, c, d]] W H
        = [{ x := min (pyInt (a / 1000 * W)) (pyInt (c / 1000 * W)),
             y := min (pyInt (b / 1000 * H)) (pyInt (d / 1000 * H)),
             w := max (pyInt (a / 1000 * W)) (pyInt (c / 1000 * W))
                    - min (pyInt (a / 1000 * W)) (pyInt (c / 1000 * W)),
             h := max (pyInt (b / 1000 * H)) (pyInt (d / 1000 * H))
                    - min (pyInt (b / 1000 * H)) (pyInt (d / 1000 * H)) }] := by
    intro a b c d W H
    simp only [draw_bboxes_2d, ingest, List.filterMap_cons, List.filterMap_nil]
    norm_num [scaleRect, swap_eq_min_max]
    norm_num [List.filterMap_cons, List.getD]
  refine ⟨hgen, ?_, ?_⟩
  · rw [hgen]
    have e1 : pyInt ((100 : ℚ) / 1000 * 500) = 50 := pyInt_eval _ 50 (by norm_num)
    have e2 : pyInt ((900 : ℚ) / 1000 * 500) = 450 := pyInt_eval _ 450 (by norm_num)
    rw [e1, e2]
    norm_num
  · rw [hgen]
    have e1 : pyInt ((100 : ℚ) / 1000 * 500) = 50 := pyInt_eval _ 50 (by norm_num)
    have e2 : pyInt ((900 : ℚ) / 1000 * 500) = 450 := pyInt_eval _ 450 (by norm_num)
    rw [e1, e2]
    norm_num

/-! ### C9: the depth-positivity boundary box -/

/-- Counterexample to claim C9 as stated: for the box
`(0,0,0, 2,2,2, 0,0,0)` and camera `fx=fy=1000, cx=cy=0`, the corners are
at depth `Z = ±1`, not `Z = 0`; `convert_3dbbox` returns 4 projected
points, not zero. -/
theorem convert_3dbbox_boundary_counterexample :
    (convert_3dbbox cos0 sin0 ⟨0, 0, 0, 2, 2, 2, 0, 0, 0⟩ ⟨1000, 1000, 0, 0⟩).length = 4
      ∧ (4 : ℕ) ≠ 0 := by
  rw [convert_origin_eval]
  exact ⟨rfl, by decide⟩

/-- Claim C9 as amended: for the box `(0,0,0, 2,2,2, 0,0,0)` with no
rotation and camera `fx=fy=1000, cx=cy=0`, the four corners with local
offset `z = -1` lie at depth `Z = -1 ≤ 0` and are dropped, while the four
with `z = +1` lie at `Z = 1 > 0` and project to `(±1000, ±1000)`, so
`convert_3dbbox` yields exactly these 4 valid points; and the behaviour at
depth exactly `Z = 0` is "not projected" (the guard is strict). -/
theorem convert_3dbbox_boundary_behavior (cos sin : ℚ → ℚ)
    (hc : cos 0 = 1) (hs : sin 0 = 0) :
    convert_3dbbox cos sin ⟨0, 0, 0, 2, 2, 2, 0, 0, 0⟩ ⟨1000, 1000, 0, 0⟩
        = [(1000, 1000), (1000, -1000), (-1000, 1000), (-1000, -1000)]
      ∧ ∀ (b : Box3D) (cam : CamParams) (corner : ℚ × ℚ × ℚ),
          (rotateCorner cos sin b corner).2.2 = 0 →
          projectCorner cos sin b cam corner = none := by
  constructor
  · simp only [convert_3dbbox, local_corners, rotateCorner, List.foldl, hc, hs]
    norm_num
  · intro b cam corner hz
    simp only [projectCorner, hz]
    norm_num

/-- Witness for C9 (amended): instantiating the trigonometric oracles
with functions that take the correct values at angle `0`, and checking the
strict guard on a corner whose rotated depth is exactly `0`. -/
theorem convert_3dbbox_boundary_behavior_witness :
    convert_3dbbox cos0 sin0 ⟨0, 0, 0, 2, 2, 2, 0, 0, 0⟩ ⟨1000, 1000, 0, 0⟩
        = [(1000, 1000), (1000, -1000), (-1000, 1000), (-1000, -1000)]
      ∧ projectCorner cos0 sin0 ⟨0, 0, 0, 2, 2, 2, 0, 0, 0⟩ ⟨1000, 1000, 0, 0⟩ (1, 1, 0)
          = none :=
  ⟨(convert_3dbbox_boundary_behavior cos0 sin0 rfl rfl).1,
   (convert_3dbbox_boundary_behavior cos0 sin0 rfl rfl).2
      ⟨0, 0, 0, 2, 2, 2, 0, 0, 0⟩ ⟨1000, 1000, 0, 0⟩ (1, 1, 0)
      (by norm_num [rotateCorner, cos0, sin0])⟩
